import Mathlib

/-!
Verification of the shared-event-source coordinator (src/src/index.ts).

The TypeScript class SharedEventSource coordinates a single real EventSource
connection across browser tabs using a BroadcastChannel (the bus) and the Web
Locks API (the leader lock).  This file gives a shallow embedding of the
per-instance state and the operations close(), #broadcast, #setupLeader,
#handleBroadcastMessage, #cleanup and #attemptToBecomeLeader, plus a small
world-level step relation covering lock grants, bus deliveries and the real
connection's callbacks.  All definitions are executable; mutually recursive
code paths (close -> broadcast -> handle -> close) are modelled with an
explicit fuel parameter, with a fuel budget large enough that the guard in
close() always stops the recursion before the fuel runs out.
-/

/-- The three readyState values of the facade and of the real EventSource:
CONNECTING = 0, OPEN = 1, CLOSED = 2. -/
inductive RS
  | Connecting
  | Open
  | Closed
deriving DecidableEq, Repr

/-- Numeric values of the readyState constants, as in the source
(CONNECTING = 0, OPEN = 1, CLOSED = 2). -/
def RS.toNat : RS → Nat
  | .Connecting => 0
  | .Open => 1
  | .Closed => 2

/-- The tag of a BroadcastMessage.  The five protocol tags from the interface
declaration plus leader-closing (declared but never sent or handled) and a
constructor for any foreign tag another deployment might send. -/
inductive MsgType
  | clientAdd
  | clientRemove
  | eventOpen
  | eventMessage
  | eventError
  | leaderClosing
  | unknownTag (tag : String)
deriving DecidableEq, Repr

/-- Shape of the object that may sit in a message's payload slot.  Each field
models one JavaScript property; a field that is absent on the actual object is
none (reading an absent property yields undefined without throwing). -/
structure PayloadObj where
  id : Option String
  data : Option String
  origin : Option String
  lastEventId : Option String
deriving DecidableEq, Repr

/-- A message on the BroadcastChannel: a tag plus an optional payload
(payload none models a message whose payload slot is undefined). -/
structure BMessage where
  type : MsgType
  payload : Option PayloadObj
deriving DecidableEq, Repr

/-- The real EventSource object owned by the leader: its construction
arguments and its own readyState. -/
structure RealES where
  esUrl : String
  esWithCredentials : Bool
  esReadyState : RS
deriving DecidableEq, Repr

/-- State of one SharedEventSource instance.  clients models the Set of
client ids (a JS Set<string> can also hold undefined, hence Option String);
lockResolver models whether #lockReleaseResolver is non-null, channelOpen
whether the BroadcastChannel is still open, handlersCleared whether #cleanup
has reset the on-open/message/error slots to noop. -/
structure InstState where
  id : String
  url : String
  withCredentials : Bool
  readyState : RS
  isLeader : Bool
  realES : Option RealES
  clients : List (Option String)
  lockResolver : Bool
  channelOpen : Bool
  handlersCleared : Bool
deriving DecidableEq, Repr

/-- Events dispatched on the instance (what the open/message/error
notification slots observe). -/
inductive OutEvent
  | openEv
  | messageEv (data origin lastEventId : Option String)
  | errorEv
deriving DecidableEq, Repr

/-- JavaScript exceptions that the modelled code can raise: typeError for
reading a property of undefined, invalidState for postMessage on a closed
channel, envError for the constructor capability check, outOfFuel marks fuel
exhaustion of the embedding (never reached at the fuel budget used). -/
inductive JsErr
  | typeError
  | invalidState
  | envError
  | outOfFuel
deriving DecidableEq, Repr

/-- Result of running a code path on one instance: the state after all
mutations performed up to either completion or the first thrown exception,
the messages posted to the channel (in order), the events dispatched locally,
whether the lock-release resolver was resolved, and the exception if one was
thrown.  Mutations made before a throw persist, as in JavaScript. -/
structure RunRes where
  st : InstState
  posted : List BMessage
  fired : List OutEvent
  released : Bool
  err : Option JsErr
deriving DecidableEq, Repr

/-- Sequencing with exception propagation: if the first part threw, the rest
of the code path does not run. -/
def RunRes.andThen (r : RunRes) (f : InstState → RunRes) : RunRes :=
  match r.err with
  | some _ => r
  | none =>
      let r2 := f r.st
      ⟨r2.st, r.posted ++ r2.posted, r.fired ++ r2.fired,
        r.released || r2.released, r2.err⟩

/-- Set.add of a JS Set: append if not already present. -/
def setAdd (l : List (Option String)) (x : Option String) : List (Option String) :=
  if x ∈ l then l else l ++ [x]

/-- #cleanup: resolve the lock-release resolver if set, close the channel,
reset the notification slots.  Returns the new state and whether the resolver
was resolved (that is, whether the lock grant gets released). -/
def cleanup (s : InstState) : InstState × Bool :=
  ({ s with lockResolver := false, channelOpen := false, handlersCleared := true },
    s.lockResolver)

/-- The switch statement at the end of #handleBroadcastMessage, which runs on
every instance: event-open sets readyState OPEN and dispatches open,
event-message dispatches a MessageEvent built from the payload fields,
event-error sets readyState CLOSED and dispatches error; every other tag
falls through. -/
def switchPart (s : InstState) (m : BMessage) : RunRes :=
  match m.type with
  | .eventOpen => ⟨{ s with readyState := RS.Open }, [], [OutEvent.openEv], false, none⟩
  | .eventMessage =>
      ⟨s, [],
        [OutEvent.messageEv (m.payload.bind PayloadObj.data)
          (m.payload.bind PayloadObj.origin) (m.payload.bind PayloadObj.lastEventId)],
        false, none⟩
  | .eventError => ⟨{ s with readyState := RS.Closed }, [], [OutEvent.errorEv], false, none⟩
  | _ => ⟨s, [], [], false, none⟩

/-- Selector for the four mutually recursive code paths of the instance:
close(), #broadcast, #handleBroadcastMessage, and the leader-only block at
the top of #handleBroadcastMessage. -/
inductive Call
  | closeC
  | broadcastC (m : BMessage)
  | handleC (m : BMessage)
  | leaderC (m : BMessage)

/-- One recursive interpreter for the four code paths, with fuel as the
termination measure.

closeC: if readyState is already CLOSED return immediately; otherwise set
readyState CLOSED, broadcast client-remove with the instance's own id, then
run #cleanup.

broadcastC m: postMessage throws on a closed channel; otherwise the message
is posted and, if this instance is the leader, #handleBroadcastMessage is
also invoked locally on the same message.

handleC m: the leader-only block, then the switch, on the original message.

leaderC m: if leader, client-add reads payload.id (throwing when the payload
is undefined), adds it to the client set and, when the real connection's
readyState is OPEN, broadcasts event-open; client-remove reads payload.id,
deletes it, and calls close() when the set became empty. -/
def run : Nat → Call → InstState → RunRes
  | 0, _, s => ⟨s, [], [], false, some JsErr.outOfFuel⟩
  | n + 1, Call.closeC, s =>
      if s.readyState = RS.Closed then ⟨s, [], [], false, none⟩
      else
        (run n (Call.broadcastC ⟨MsgType.clientRemove, some ⟨some s.id, none, none, none⟩⟩)
            { s with readyState := RS.Closed }).andThen
          (fun t => ⟨(cleanup t).1, [], [], (cleanup t).2, none⟩)
  | n + 1, Call.broadcastC m, s =>
      if s.channelOpen = false then ⟨s, [], [], false, some JsErr.invalidState⟩
      else if s.isLeader then
        let r := run n (Call.handleC m) s
        ⟨r.st, m :: r.posted, r.fired, r.released, r.err⟩
      else ⟨s, [m], [], false, none⟩
  | n + 1, Call.handleC m, s =>
      (run n (Call.leaderC m) s).andThen (fun t => switchPart t m)
  | n + 1, Call.leaderC m, s =>
      if s.isLeader = false then ⟨s, [], [], false, none⟩
      else
        match m.type, m.payload with
        | MsgType.clientAdd, none => ⟨s, [], [], false, some JsErr.typeError⟩
        | MsgType.clientAdd, some p =>
            let s1 := { s with clients := setAdd s.clients p.id }
            if (s1.realES.map RealES.esReadyState) = some RS.Open then
              run n (Call.broadcastC ⟨MsgType.eventOpen, none⟩) s1
            else ⟨s1, [], [], false, none⟩
        | MsgType.clientRemove, none => ⟨s, [], [], false, some JsErr.typeError⟩
        | MsgType.clientRemove, some p =>
            let s1 := { s with clients := s.clients.erase p.id }
            if s1.clients.isEmpty then run n Call.closeC s1
            else ⟨s1, [], [], false, none⟩
        | _, _ => ⟨s, [], [], false, none⟩

/-- Fuel budget; the deepest real call chain (handle -> leader -> close ->
broadcast -> handle -> leader -> close, where the last close hits its guard)
consumes seven levels, so nine is never exhausted. -/
def FUEL : Nat := 9

/-- close(): the public close operation. -/
def close (s : InstState) : RunRes := run FUEL Call.closeC s

/-- #handleBroadcastMessage, as invoked by a channel delivery. -/
def handleMessage (s : InstState) (m : BMessage) : RunRes :=
  run FUEL (Call.handleC m) s

/-- #broadcast: post plus leader-local handling. -/
def broadcast (s : InstState) (m : BMessage) : RunRes :=
  run FUEL (Call.broadcastC m) s

/-- The fresh state built by the constructor (after the capability check):
readyState CONNECTING, not leader, no real connection, empty client set, no
resolver, open channel, live handler slots. -/
def newInst (idv url : String) (wc : Bool) : InstState :=
  { id := idv, url := url, withCredentials := wc, readyState := RS.Connecting,
    isLeader := false, realES := none, clients := [], lockResolver := false,
    channelOpen := true, handlersCleared := false }

/-- #setupLeader: add own id to the client set and construct the real
EventSource for this url and credentials mode (its readyState starts
CONNECTING). -/
def setupLeader (s : InstState) : InstState :=
  { s with clients := setAdd s.clients (some s.id),
           realES := some ⟨s.url, s.withCredentials, RS.Connecting⟩ }

/-- The lock-grant callback in #attemptToBecomeLeader, up to the await: set
isLeader, run #setupLeader, install the lock-release resolver. -/
def onGrant (s : InstState) : InstState :=
  { setupLeader { s with isLeader := true } with lockResolver := true }

/-- The continuation after the lock-release resolver resolves: clear
isLeader, close and drop the real EventSource.  The Web Lock itself is
released at this point (modelled at world level). -/
def applyRelease (s : InstState) : InstState :=
  { s with isLeader := false, realES := none }

/-- Host capabilities checked synchronously by the constructor. -/
structure HostEnv where
  hasBroadcastChannel : Bool
  hasLocks : Bool
deriving DecidableEq, Repr

/-- The constructor: throw synchronously when BroadcastChannel or the Web
Locks API is missing; otherwise build the fresh state, start the leadership
attempt (the lock request itself is a world-level effect) and broadcast
client-add with the new id.  On success it returns the instance and the
posted messages. -/
def construct (env : HostEnv) (url idv : String) (wc : Bool) :
    Except JsErr (InstState × List BMessage) :=
  if !env.hasBroadcastChannel || !env.hasLocks then
    Except.error JsErr.envError
  else
    let s := newInst idv url wc
    let r := broadcast s ⟨MsgType.clientAdd, some ⟨some idv, none, none, none⟩⟩
    Except.ok (r.st, r.posted)

/-- The real connection's onopen callback together with the environment
effect that precedes it (the EventSource's own readyState becomes OPEN):
set this.readyState OPEN and broadcast event-open. -/
def esOpenStep (s : InstState) : RunRes :=
  broadcast
    { s with realES := s.realES.map (fun es => { es with esReadyState := RS.Open }),
             readyState := RS.Open }
    ⟨MsgType.eventOpen, none⟩

/-- The real connection's onmessage callback: broadcast event-message with
data, origin and lastEventId copied verbatim from the underlying event. -/
def esMessageStep (s : InstState) (d og lid : Option String) : RunRes :=
  broadcast s ⟨MsgType.eventMessage, some ⟨none, d, og, lid⟩⟩

/-- The real connection's onerror callback (the EventSource itself goes back
to CONNECTING for its auto-reconnect): set this.readyState CLOSED and
broadcast event-error. -/
def esErrorStep (s : InstState) : RunRes :=
  broadcast
    { s with realES := s.realES.map (fun es => { es with esReadyState := RS.Connecting }),
             readyState := RS.Closed }
    ⟨MsgType.eventError, none⟩

/-!
Structural facts about the instance operations, proved once by fuel
induction: a code path never changes the instance id or the real-connection
reference, never installs the lock-release resolver, releases the lock only
when the resolver was installed (and leaves it cleared afterwards), and never
reopens a closed channel.
-/

def OpOk (s : InstState) (r : RunRes) : Prop :=
  r.st.id = s.id ∧
  r.st.realES = s.realES ∧
  (r.st.lockResolver = true → s.lockResolver = true) ∧
  (r.released = true → s.lockResolver = true) ∧
  (r.released = true → r.st.lockResolver = false) ∧
  (r.st.channelOpen = true → s.channelOpen = true)

theorem opOk_pure (s : InstState) (l : List BMessage) (e : List OutEvent)
    (err : Option JsErr) : OpOk s ⟨s, l, e, false, err⟩ := by
  simp [OpOk]

theorem opOk_nochange {s st : InstState} (l : List BMessage) (e : List OutEvent)
    (err : Option JsErr) (h1 : st.id = s.id) (h2 : st.realES = s.realES)
    (h3 : st.lockResolver = s.lockResolver) (h4 : st.channelOpen = s.channelOpen) :
    OpOk s ⟨st, l, e, false, err⟩ := by
  simp [OpOk, h1, h2, h3, h4]

theorem opOk_congr {s s2 : InstState} {r : RunRes} (h : OpOk s2 r)
    (h1 : s2.id = s.id) (h2 : s2.realES = s.realES)
    (h3 : s2.lockResolver = s.lockResolver) (h4 : s2.channelOpen = s.channelOpen) :
    OpOk s r := by
  obtain ⟨a1, a2, a3, a4, a5, a6⟩ := h
  refine ⟨h1 ▸ a1, h2 ▸ a2, ?_, ?_, a5, ?_⟩
  · intro hx; exact h3 ▸ a3 hx
  · intro hx; exact h3 ▸ a4 hx
  · intro hx; exact h4 ▸ a6 hx

theorem opOk_reshape {s : InstState} {st : InstState} {l e rel err l2 e2 err2}
    (h : OpOk s (⟨st, l, e, rel, err⟩ : RunRes)) :
    OpOk s (⟨st, l2, e2, rel, err2⟩ : RunRes) := by
  simpa [OpOk] using h

theorem opOk_andThen {s : InstState} {r : RunRes} {f : InstState → RunRes}
    (h1 : OpOk s r) (h2 : ∀ t, OpOk t (f t)) : OpOk s (r.andThen f) := by
  obtain ⟨a1, a2, a3, a4, a5, a6⟩ := h1
  unfold RunRes.andThen
  cases hr : r.err with
  | some e => exact ⟨a1, a2, a3, a4, a5, a6⟩
  | none =>
    obtain ⟨b1, b2, b3, b4, b5, b6⟩ := h2 r.st
    refine ⟨?_, ?_, ?_, ?_, ?_, ?_⟩ <;> simp only []
    · exact a1 ▸ b1
    · exact a2 ▸ b2
    · intro hx; exact a3 (b3 hx)
    · intro hx
      rcases Bool.or_eq_true_iff.mp hx with h | h
      · exact a4 h
      · exact a3 (b4 h)
    · intro hx
      rcases Bool.or_eq_true_iff.mp hx with h | h
      · have hf : r.st.lockResolver = false := a5 h
        by_cases hb : (f r.st).st.lockResolver = true
        · exact absurd (b3 hb) (by simp [hf])
        · simpa using hb
      · exact b5 h
    · intro hx; exact a6 (b6 hx)

theorem opOk_run : ∀ (n : Nat) (c : Call) (s : InstState), OpOk s (run n c s) := by
  intro n
  induction n with
  | zero => intro c s; exact opOk_pure s [] [] (some JsErr.outOfFuel)
  | succ n ih =>
    intro c s
    cases c with
    | closeC =>
      by_cases h : s.readyState = RS.Closed
      · simp only [run, h, if_pos rfl]
        exact opOk_pure s [] [] none
      · simp only [run, if_neg h]
        refine opOk_andThen (opOk_congr (ih _ _) rfl rfl rfl rfl) ?_
        intro t
        refine ⟨rfl, rfl, ?_, ?_, ?_, ?_⟩ <;> simp [cleanup]
    | broadcastC m =>
      by_cases h : s.channelOpen = false
      · simp only [run, h, if_pos rfl]
        exact opOk_pure s [] [] _
      · by_cases hl : s.isLeader
        · simp only [run, if_neg h, hl, if_pos rfl, if_true]
          exact opOk_reshape (ih (Call.handleC m) s)
        · simp only [run, if_neg h, if_neg hl]
          exact opOk_pure s [m] [] none
    | handleC m =>
      simp only [run]
      refine opOk_andThen (ih _ _) ?_
      intro t
      cases hm : m.type <;> simp only [switchPart, hm] <;>
        exact opOk_nochange _ _ _ rfl rfl rfl rfl
    | leaderC m =>
      by_cases hl : s.isLeader = false
      · simp only [run, hl, if_pos rfl]
        exact opOk_pure s [] [] none
      · rcases m with ⟨t, p⟩
        cases t with
        | clientAdd =>
          cases p with
          | none =>
            simp only [run, if_neg hl]
            exact opOk_pure s [] [] _
          | some p =>
            simp only [run, if_neg hl]
            by_cases ho : ((({ s with clients := setAdd s.clients p.id } : InstState).realES.map
                RealES.esReadyState) = some RS.Open)
            · simp only [ho, if_pos rfl]
              exact opOk_congr (ih _ _) rfl rfl rfl rfl
            · simp only [if_neg ho]
              exact opOk_nochange _ _ _ rfl rfl rfl rfl
        | clientRemove =>
          cases p with
          | none =>
            simp only [run, if_neg hl]
            exact opOk_pure s [] [] _
          | some p =>
            simp only [run, if_neg hl]
            by_cases he : (({ s with clients := s.clients.erase p.id } : InstState).clients.isEmpty = true)
            · simp only [he, if_pos rfl]
              exact opOk_congr (ih _ _) rfl rfl rfl rfl
            · simp only [if_neg he]
              exact opOk_nochange _ _ _ rfl rfl rfl rfl
        | eventOpen => cases p <;> (simp only [run, if_neg hl]; exact opOk_pure s [] [] _)
        | eventMessage => cases p <;> (simp only [run, if_neg hl]; exact opOk_pure s [] [] _)
        | eventError => cases p <;> (simp only [run, if_neg hl]; exact opOk_pure s [] [] _)
        | leaderClosing => cases p <;> (simp only [run, if_neg hl]; exact opOk_pure s [] [] _)
        | unknownTag tag => cases p <;> (simp only [run, if_neg hl]; exact opOk_pure s [] [] _)

/-! World model: all instances sharing one stream identity, the holder of the
Web Lock, and the queue of pending lock requests. -/

structure World where
  insts : List InstState
  holder : Option String
  queue : List String
deriving DecidableEq, Repr

/-- Replace the state of the instance with the given id. -/
def updInsts (l : List InstState) (idv : String) (t : InstState) : List InstState :=
  l.map fun x => if x.id = idv then t else x

/-- Apply a RunRes of instance idv to the world: its state is replaced (with
the lock-callback continuation applied when the resolver was resolved), and
the Web Lock is released when the resolver was resolved. -/
def applyRunW (w : World) (idv : String) (r : RunRes) : World :=
  { insts := updInsts w.insts idv (if r.released then applyRelease r.st else r.st),
    holder := if r.released then none else w.holder,
    queue := w.queue }

/-- Promote instance idv to leader: the lock-grant callback runs on it. -/
def grantUpd (l : List InstState) (idv : String) : List InstState :=
  l.map fun x => if x.id = idv then onGrant x else x

/-- World transitions: constructing a new instance (fresh id, lock request
enqueued), the Web Lock granting the head of the queue, an instance's close()
being called, the bus delivering a message to an instance whose channel is
open, and the real connection's open/message/error callbacks on an instance
that owns one. -/
inductive WStep : World → World → Prop
  | constructS (w : World) (idv url : String) (wc : Bool)
      (hfresh : idv ∉ w.insts.map InstState.id) :
      WStep w ⟨w.insts ++ [newInst idv url wc], w.holder, w.queue ++ [idv]⟩
  | grantS (w : World) (idv : String) (rest : List String)
      (hq : w.queue = idv :: rest) (hh : w.holder = none) :
      WStep w ⟨grantUpd w.insts idv, some idv, rest⟩
  | closeS (w : World) (i : InstState) (hi : i ∈ w.insts) :
      WStep w (applyRunW w i.id (close i))
  | deliverS (w : World) (i : InstState) (m : BMessage) (hi : i ∈ w.insts)
      (hch : i.channelOpen = true) :
      WStep w (applyRunW w i.id (handleMessage i m))
  | esOpenS (w : World) (i : InstState) (es : RealES) (hi : i ∈ w.insts)
      (hes : i.realES = some es) :
      WStep w (applyRunW w i.id (esOpenStep i))
  | esMsgS (w : World) (i : InstState) (es : RealES) (d og lid : Option String)
      (hi : i ∈ w.insts) (hes : i.realES = some es) :
      WStep w (applyRunW w i.id (esMessageStep i d og lid))
  | esErrS (w : World) (i : InstState) (es : RealES) (hi : i ∈ w.insts)
      (hes : i.realES = some es) :
      WStep w (applyRunW w i.id (esErrorStep i))

/-- Reflexive-transitive closure of the step relation. -/
inductive Reach : World → World → Prop
  | refl (w : World) : Reach w w
  | tail {w1 w2 w3 : World} (h : Reach w1 w2) (hs : WStep w2 w3) : Reach w1 w3

/-- The empty initial world for a stream identity. -/
def initWorld : World := ⟨[], none, []⟩

/-- The protocol invariant: instance ids are distinct, an installed
lock-release resolver belongs to the lock holder, and a real EventSource
exists only on the lock holder. -/
def WInv (w : World) : Prop :=
  (w.insts.map InstState.id).Nodup ∧
  (∀ i ∈ w.insts, i.lockResolver = true → w.holder = some i.id) ∧
  (∀ i ∈ w.insts, i.realES ≠ none → w.holder = some i.id)

theorem mem_updInsts {l : List InstState} {idv : String} {t j : InstState}
    (hj : j ∈ updInsts l idv t) : j = t ∨ (j ∈ l ∧ j.id ≠ idv) := by
  unfold updInsts at hj
  rcases List.mem_map.mp hj with ⟨x, hx, hxe⟩
  by_cases h : x.id = idv
  · left; rw [← hxe]; simp [h]
  · right
    constructor
    · rw [← hxe]; simp [h]; exact hx
    · rw [← hxe]; simp [h]

theorem updInsts_map_id {l : List InstState} {idv : String} {t : InstState}
    (h : t.id = idv) :
    (updInsts l idv t).map InstState.id = l.map InstState.id := by
  unfold updInsts
  rw [List.map_map]
  apply List.map_congr_left
  intro x hx
  by_cases hxi : x.id = idv
  · simp [hxi, h]
  · simp [hxi]

theorem onGrant_id (s : InstState) : (onGrant s).id = s.id := rfl

theorem applyRelease_id (s : InstState) : (applyRelease s).id = s.id := rfl

theorem mem_grantUpd {l : List InstState} {idv : String} {j : InstState}
    (hj : j ∈ grantUpd l idv) :
    (∃ x ∈ l, x.id = idv ∧ j = onGrant x) ∨ (j ∈ l ∧ j.id ≠ idv) := by
  unfold grantUpd at hj
  rcases List.mem_map.mp hj with ⟨x, hx, hxe⟩
  by_cases h : x.id = idv
  · left; exact ⟨x, hx, h, by rw [← hxe]; simp [h]⟩
  · right
    constructor
    · rw [← hxe]; simp [h]; exact hx
    · rw [← hxe]; simp [h]

theorem grantUpd_map_id (l : List InstState) (idv : String) :
    (grantUpd l idv).map InstState.id = l.map InstState.id := by
  unfold grantUpd
  rw [List.map_map]
  apply List.map_congr_left
  intro x hx
  by_cases hxi : x.id = idv <;> simp [hxi, onGrant_id]

/-- Core preservation lemma for every step that applies a RunRes of a member
instance, given the structural facts relating the result to that instance. -/
theorem winv_applyRun {w : World} {i : InstState} {r : RunRes}
    (hw : WInv w) (hi : i ∈ w.insts)
    (hid : r.st.id = i.id)
    (hres3 : r.st.lockResolver = true → i.lockResolver = true)
    (hrel4 : r.released = true → i.lockResolver = true)
    (hrel5 : r.released = true → r.st.lockResolver = false)
    (hes : r.st.realES ≠ none → w.holder = some i.id) :
    WInv (applyRunW w i.id r) := by
  obtain ⟨hnd, hinv2, hinv3⟩ := hw
  by_cases hr : r.released = true
  · -- the lock gets released: holder becomes none
    have htid : (applyRelease r.st).id = i.id := by rw [applyRelease_id, hid]
    refine ⟨?_, ?_, ?_⟩
    · simpa [applyRunW, hr, updInsts_map_id htid] using hnd
    · intro j hj hjres
      exfalso
      rcases mem_updInsts hj with hjt | ⟨hjl, hjne⟩
      · rw [hjt] at hjres
        simp [hr, applyRelease, hrel5 hr] at hjres
      · have h1 := hinv2 j hjl hjres
        have h2 := hinv2 i hi (hrel4 hr)
        rw [h1] at h2
        exact hjne (Option.some.inj h2)
    · intro j hj hjes
      exfalso
      rcases mem_updInsts hj with hjt | ⟨hjl, hjne⟩
      · rw [hjt] at hjes
        simp [hr, applyRelease] at hjes
      · have h1 := hinv3 j hjl hjes
        have h2 := hinv2 i hi (hrel4 hr)
        rw [h1] at h2
        exact hjne (Option.some.inj h2)
  · -- no release: holder unchanged
    have hr0 : r.released = false := by simpa using hr
    have htid : r.st.id = i.id := hid
    refine ⟨?_, ?_, ?_⟩
    · simpa [applyRunW, hr0, updInsts_map_id htid] using hnd
    · intro j hj hjres
      have hh : (applyRunW w i.id r).holder = w.holder := by simp [applyRunW, hr0]
      rw [hh]
      rcases mem_updInsts hj with hjt | ⟨hjl, hjne⟩
      · simp only [hr0] at hjt
        simp only [Bool.false_eq_true, if_false] at hjt
        rw [hjt] at hjres ⊢
        rw [hid]
        exact hinv2 i hi (hres3 hjres)
      · exact hinv2 j hjl hjres
    · intro j hj hjes
      have hh : (applyRunW w i.id r).holder = w.holder := by simp [applyRunW, hr0]
      rw [hh]
      rcases mem_updInsts hj with hjt | ⟨hjl, hjne⟩
      · simp only [hr0] at hjt
        simp only [Bool.false_eq_true, if_false] at hjt
        rw [hjt] at hjes ⊢
        rw [hid]
        exact hes hjes
      · exact hinv3 j hjl hjes

theorem winv_initWorld : WInv initWorld := by
  refine ⟨by simp [initWorld], ?_, ?_⟩ <;> intro i hi <;> simp [initWorld] at hi

theorem winv_step {w w2 : World} (hw : WInv w) (hs : WStep w w2) : WInv w2 := by
  obtain ⟨hnd, hinv2, hinv3⟩ := hw
  cases hs with
  | constructS idv url wc hfresh =>
    refine ⟨?_, ?_, ?_⟩
    · simpa [List.nodup_append] using ⟨hnd, by simpa using hfresh⟩
    · intro j hj hjres
      rcases List.mem_append.mp hj with hjl | hjn
      · exact hinv2 j hjl hjres
      · simp at hjn
        rw [hjn] at hjres
        simp [newInst] at hjres
    · intro j hj hjes
      rcases List.mem_append.mp hj with hjl | hjn
      · exact hinv3 j hjl hjes
      · simp at hjn
        rw [hjn] at hjes
        simp [newInst] at hjes
  | grantS idv rest hq hh =>
    refine ⟨?_, ?_, ?_⟩
    · simpa [grantUpd_map_id] using hnd
    · intro j hj hjres
      rcases mem_grantUpd hj with ⟨x, hx, hxi, hje⟩ | ⟨hjl, hjne⟩
      · rw [hje, onGrant_id, hxi]
      · exfalso
        have := hinv2 j hjl hjres
        rw [hh] at this
        exact Option.noConfusion this
    · intro j hj hjes
      rcases mem_grantUpd hj with ⟨x, hx, hxi, hje⟩ | ⟨hjl, hjne⟩
      · rw [hje, onGrant_id, hxi]
      · exfalso
        have := hinv3 j hjl hjes
        rw [hh] at this
        exact Option.noConfusion this
  | closeS i hi =>
    obtain ⟨o1, o2, o3, o4, o5, o6⟩ := opOk_run FUEL Call.closeC i
    refine winv_applyRun ⟨hnd, hinv2, hinv3⟩ hi o1 o3 o4 o5 ?_
    intro h
    simp only [close] at h
    rw [o2] at h
    exact hinv3 i hi h
  | deliverS i m hi hch =>
    obtain ⟨o1, o2, o3, o4, o5, o6⟩ := opOk_run FUEL (Call.handleC m) i
    refine winv_applyRun ⟨hnd, hinv2, hinv3⟩ hi o1 o3 o4 o5 ?_
    intro h
    simp only [handleMessage] at h
    rw [o2] at h
    exact hinv3 i hi h
  | esOpenS i es hi hes =>
    obtain ⟨o1, o2, o3, o4, o5, o6⟩ :=
      opOk_run FUEL (Call.broadcastC ⟨MsgType.eventOpen, none⟩)
        { i with realES := i.realES.map (fun e => { e with esReadyState := RS.Open }),
                 readyState := RS.Open }
    refine winv_applyRun ⟨hnd, hinv2, hinv3⟩ hi o1 o3 o4 o5 ?_
    intro _
    exact hinv3 i hi (by rw [hes]; exact Option.noConfusion)
  | esMsgS i es d og lid hi hes =>
    obtain ⟨o1, o2, o3, o4, o5, o6⟩ :=
      opOk_run FUEL (Call.broadcastC ⟨MsgType.eventMessage, some ⟨none, d, og, lid⟩⟩) i
    refine winv_applyRun ⟨hnd, hinv2, hinv3⟩ hi o1 o3 o4 o5 ?_
    intro _
    exact hinv3 i hi (by rw [hes]; exact Option.noConfusion)
  | esErrS i es hi hes =>
    obtain ⟨o1, o2, o3, o4, o5, o6⟩ :=
      opOk_run FUEL (Call.broadcastC ⟨MsgType.eventError, none⟩)
        { i with realES := i.realES.map (fun e => { e with esReadyState := RS.Connecting }),
                 readyState := RS.Closed }
    refine winv_applyRun ⟨hnd, hinv2, hinv3⟩ hi o1 o3 o4 o5 ?_
    intro _
    exact hinv3 i hi (by rw [hes]; exact Option.noConfusion)

theorem winv_reach {w : World} (h : Reach initWorld w) : WInv w := by
  induction h with
  | refl => exact winv_initWorld
  | tail _ hs ih => exact winv_step ih hs

/-- C7: in every reachable world, an instance that does not hold the lock
grant has no real EventSource; the real connection is created only inside the
lock-granted region (the grant step is the only transition that sets it). -/
theorem c7_follower_never_opens_real_connection (w : World) (i : InstState)
    (hr : Reach initWorld w) (hi : i ∈ w.insts) (hf : w.holder ≠ some i.id) :
    i.realES = none := by
  by_contra h
  exact hf ((winv_reach hr).2.2 i hi h)

theorem c7_witness :
    (newInst "a" "/sse" false).realES = none :=
  c7_follower_never_opens_real_connection
    ⟨[newInst "a" "/sse" false], none, ["a"]⟩ (newInst "a" "/sse" false)
    (Reach.tail (Reach.refl initWorld)
      (WStep.constructS initWorld "a" "/sse" false (by simp [initWorld])))
    (by simp) (by simp)

/-!
The close-before-grant race (spec section 4.2 edge case, scenario 4): a
single instance A is constructed, close() runs before the lock grant, then
the grant arrives.  The code runs #setupLeader unconditionally in the grant
callback and installs the lock-release resolver after #cleanup has already
run, so a real EventSource is constructed for the closed instance and no code
path ever resolves the resolver again: the lock is held forever.
-/

def instA : InstState := newInst "A" "/sse" false

def wA : World := ⟨[instA], none, ["A"]⟩

def wB : World := applyRunW wA "A" (close instA)

def wC : World := ⟨grantUpd wB.insts "A", some "A", []⟩

theorem reach_wC : Reach initWorld wC :=
  Reach.tail
    (Reach.tail
      (Reach.tail (Reach.refl initWorld)
        (WStep.constructS initWorld "A" "/sse" false (by simp [initWorld])))
      (WStep.closeS wA instA (by simp [wA])))
    (WStep.grantS wB "A" [] (by decide) (by decide))

/-- After wC no configuration ever gives up the lock: A's channel is closed,
so the broadcast inside close() throws before #cleanup can run, and no other
instance can acquire a resolver while the lock is held. -/
def StallInv (w : World) : Prop :=
  w.holder = some "A" ∧
  "A" ∈ w.insts.map InstState.id ∧
  (∀ i ∈ w.insts, i.id = "A" → i.channelOpen = false) ∧
  (∀ i ∈ w.insts, i.id ≠ "A" → i.lockResolver = false ∧ i.realES = none)

theorem run_broadcast_closed (n : Nat) (m : BMessage) (s : InstState)
    (h : s.channelOpen = false) :
    (run n (Call.broadcastC m) s).st = s ∧ (run n (Call.broadcastC m) s).released = false := by
  cases n with
  | zero => exact ⟨rfl, rfl⟩
  | succ n => simp [run, h]

theorem close_closed_channel (s : InstState) (h : s.channelOpen = false) :
    (close s).released = false ∧ (close s).st.channelOpen = false ∧
      (close s).st.id = s.id := by
  by_cases hrs : s.readyState = RS.Closed
  · simp [close, FUEL, run, hrs, h]
  · have h8 := run_broadcast_closed 8
      ⟨MsgType.clientRemove, some ⟨some s.id, none, none, none⟩⟩
      { s with readyState := RS.Closed } (by simpa using h)
    have herr : (run 8 (Call.broadcastC
        ⟨MsgType.clientRemove, some ⟨some s.id, none, none, none⟩⟩)
        { s with readyState := RS.Closed }).err = some JsErr.invalidState := by
      simp [run, h]
    simp [close, FUEL, run, hrs, RunRes.andThen, herr, h8.1, h8.2, h]

theorem stall_applyRun {w : World} {i : InstState} {r : RunRes}
    (hw : StallInv w) (_hi : i ∈ w.insts)
    (hid : r.st.id = i.id) (hrel : r.released = false)
    (hcha : i.id = "A" → r.st.channelOpen = false)
    (hoth : i.id ≠ "A" → r.st.lockResolver = false ∧ r.st.realES = none) :
    StallInv (applyRunW w i.id r) := by
  obtain ⟨h1, h2, h3, h4⟩ := hw
  refine ⟨?_, ?_, ?_, ?_⟩
  · simp [applyRunW, hrel, h1]
  · simpa [applyRunW, hrel, updInsts_map_id hid] using h2
  · intro j hj hja
    simp only [applyRunW, hrel] at hj
    simp only [Bool.false_eq_true, if_false] at hj
    rcases mem_updInsts hj with hjt | ⟨hjl, _⟩
    · rw [hjt]
      rw [hjt, hid] at hja
      exact hcha hja
    · exact h3 j hjl hja
  · intro j hj hja
    simp only [applyRunW, hrel] at hj
    simp only [Bool.false_eq_true, if_false] at hj
    rcases mem_updInsts hj with hjt | ⟨hjl, _⟩
    · rw [hjt]
      rw [hjt, hid] at hja
      exact hoth hja
    · exact h4 j hjl hja

theorem stall_step {w w2 : World} (hw : StallInv w) (hs : WStep w w2) : StallInv w2 := by
  obtain ⟨h1, h2, h3, h4⟩ := hw
  cases hs with
  | constructS idv url wc hfresh =>
    have hne : idv ≠ "A" := fun he => hfresh (he ▸ h2)
    refine ⟨h1, ?_, ?_, ?_⟩
    · simpa using Or.inl h2
    · intro j hj hja
      rcases List.mem_append.mp hj with hjl | hjn
      · exact h3 j hjl hja
      · simp at hjn
        rw [hjn, newInst] at hja
        exact absurd hja hne
    · intro j hj hja
      rcases List.mem_append.mp hj with hjl | hjn
      · exact h4 j hjl hja
      · simp at hjn
        rw [hjn]
        exact ⟨rfl, rfl⟩
  | grantS idv rest hq hh =>
    rw [h1] at hh
    exact Option.noConfusion hh
  | closeS i hi =>
    obtain ⟨o1, o2, o3, o4, o5, o6⟩ := opOk_run FUEL Call.closeC i
    by_cases ha : i.id = "A"
    · have hchf : i.channelOpen = false := h3 i hi ha
      obtain ⟨hrel, hch2, _⟩ := close_closed_channel i hchf
      refine stall_applyRun ⟨h1, h2, h3, h4⟩ hi o1 hrel (fun _ => hch2) ?_
      intro hne
      exact absurd ha hne
    · have hres : i.lockResolver = false := (h4 i hi ha).1
      have hes : i.realES = none := (h4 i hi ha).2
      have hrel : (close i).released = false := by
        cases hb : (close i).released
        · rfl
        · exact absurd (o4 (by simpa [close] using hb)) (by simp [hres])
      refine stall_applyRun ⟨h1, h2, h3, h4⟩ hi o1 hrel (fun hc => absurd hc ha) ?_
      intro _
      constructor
      · cases hb : (close i).st.lockResolver
        · rfl
        · exact absurd (o3 (by simpa [close] using hb)) (by simp [hres])
      · rw [show (close i).st.realES = i.realES from o2, hes]
  | deliverS i m hi hch =>
    obtain ⟨o1, o2, o3, o4, o5, o6⟩ := opOk_run FUEL (Call.handleC m) i
    have ha : i.id ≠ "A" := fun he => by
      have := h3 i hi he
      rw [hch] at this
      exact Bool.noConfusion this
    have hres : i.lockResolver = false := (h4 i hi ha).1
    have hes : i.realES = none := (h4 i hi ha).2
    have hrel : (handleMessage i m).released = false := by
      cases hb : (handleMessage i m).released
      · rfl
      · exact absurd (o4 (by simpa [handleMessage] using hb)) (by simp [hres])
    refine stall_applyRun ⟨h1, h2, h3, h4⟩ hi o1 hrel (fun hc => absurd hc ha) ?_
    intro _
    constructor
    · cases hb : (handleMessage i m).st.lockResolver
      · rfl
      · exact absurd (o3 (by simpa [handleMessage] using hb)) (by simp [hres])
    · rw [show (handleMessage i m).st.realES = i.realES from o2, hes]
  | esOpenS i es hi hes =>
    have ha : i.id = "A" := by
      by_contra hc
      rw [(h4 i hi hc).2] at hes
      exact Option.noConfusion hes
    have hchf : i.channelOpen = false := h3 i hi ha
    have hb := run_broadcast_closed FUEL ⟨MsgType.eventOpen, none⟩
      { i with realES := i.realES.map (fun e => { e with esReadyState := RS.Open }),
               readyState := RS.Open } (by simpa using hchf)
    refine stall_applyRun ⟨h1, h2, h3, h4⟩ hi ?_ ?_ (fun _ => ?_) (fun hc => absurd ha hc)
    · simp [esOpenStep, broadcast, hb.1]
    · simp [esOpenStep, broadcast, hb.2]
    · simp only [esOpenStep, broadcast, hb.1]
      exact hchf
  | esMsgS i es d og lid hi hes =>
    have ha : i.id = "A" := by
      by_contra hc
      rw [(h4 i hi hc).2] at hes
      exact Option.noConfusion hes
    have hchf : i.channelOpen = false := h3 i hi ha
    have hb := run_broadcast_closed FUEL ⟨MsgType.eventMessage, some ⟨none, d, og, lid⟩⟩ i hchf
    refine stall_applyRun ⟨h1, h2, h3, h4⟩ hi ?_ ?_ (fun _ => ?_) (fun hc => absurd ha hc)
    · simp [esMessageStep, broadcast, hb.1]
    · simp [esMessageStep, broadcast, hb.2]
    · simp [esMessageStep, broadcast, hb.1, hchf]
  | esErrS i es hi hes =>
    have ha : i.id = "A" := by
      by_contra hc
      rw [(h4 i hi hc).2] at hes
      exact Option.noConfusion hes
    have hchf : i.channelOpen = false := h3 i hi ha
    have hb := run_broadcast_closed FUEL ⟨MsgType.eventError, none⟩
      { i with realES := i.realES.map (fun e => { e with esReadyState := RS.Connecting }),
               readyState := RS.Closed } (by simpa using hchf)
    refine stall_applyRun ⟨h1, h2, h3, h4⟩ hi ?_ ?_ (fun _ => ?_) (fun hc => absurd ha hc)
    · simp [esErrorStep, broadcast, hb.1]
    · simp [esErrorStep, broadcast, hb.2]
    · simp only [esErrorStep, broadcast, hb.1]
      exact hchf

theorem stall_wC : StallInv wC := by unfold StallInv; decide

theorem stall_reach {w2 : World} (h : Reach wC w2) : StallInv w2 := by
  induction h with
  | refl => exact stall_wC
  | tail _ hs ih => exact stall_step ih hs

/-- C1: in the close-before-grant race the code does NOT satisfy the claim:
the closed instance still wins the grant, but a real EventSource is
constructed for it (setupLeader runs unconditionally), and the lock is never
released afterwards, so the queue stalls forever. -/
theorem c1_close_before_grant_stalls :
    Reach initWorld wC ∧
    (∀ i ∈ wC.insts, i.readyState = RS.Closed ∧ i.realES ≠ none) ∧
    (∀ w2 : World, Reach wC w2 → w2.holder = some "A") := by
  refine ⟨reach_wC, by decide, ?_⟩
  intro w2 h
  exact (stall_reach h).1

theorem c1_witness :
    wC.holder = some "A" ∧ (onGrant (close instA).st).realES ≠ none :=
  ⟨c1_close_before_grant_stalls.2.2 wC (Reach.refl wC),
   (c1_close_before_grant_stalls.2.1 (onGrant (close instA).st) (by decide)).2⟩

/-! Helper lemmas about readyState after close(). -/

theorem st_closed_of_closed : ∀ (n : Nat) (c : Call) (s : InstState),
    (match c with
      | Call.closeC => True
      | Call.broadcastC m => m.type = MsgType.clientRemove
      | Call.handleC m => m.type = MsgType.clientRemove
      | Call.leaderC m => m.type = MsgType.clientRemove) →
    s.readyState = RS.Closed → (run n c s).st.readyState = RS.Closed := by
  intro n
  induction n with
  | zero => intro c s _ h; exact h
  | succ n ih =>
    intro c s hc h
    cases c with
    | closeC => simp [run, h]
    | broadcastC m =>
      by_cases hch : s.channelOpen = false
      · simp [run, hch, h]
      · by_cases hl : s.isLeader
        · simp only [run, if_neg hch, hl, if_true]
          exact ih (Call.handleC m) s hc h
        · simp [run, if_neg hch, hl, h]
    | handleC m =>
      simp only [run, RunRes.andThen]
      cases herr : (run n (Call.leaderC m) s).err with
      | some e => exact ih (Call.leaderC m) s hc h
      | none =>
        have hmid := ih (Call.leaderC m) s hc h
        rcases hc with hc
        simp only [switchPart, hc]
        exact hmid
    | leaderC m =>
      rcases hc with hc
      by_cases hl : s.isLeader = false
      · simp [run, hl, h]
      · rcases m with ⟨t, p⟩
        simp only at hc
        subst hc
        cases p with
        | none => simp [run, if_neg hl, h]
        | some p =>
          simp only [run, if_neg hl]
          by_cases he : (({ s with clients := s.clients.erase p.id } : InstState).clients.isEmpty = true)
          · rw [if_pos he]
            exact ih Call.closeC _ trivial h
          · rw [if_neg he]
            exact h

theorem andThen_st_closed {r : RunRes} {f : InstState → RunRes}
    (h1 : r.st.readyState = RS.Closed)
    (h2 : ∀ t, t.readyState = RS.Closed → (f t).st.readyState = RS.Closed) :
    (r.andThen f).st.readyState = RS.Closed := by
  unfold RunRes.andThen
  cases hr : r.err with
  | some e => exact h1
  | none => exact h2 r.st h1

theorem close_unfold (s : InstState) :
    close s =
      if s.readyState = RS.Closed then ⟨s, [], [], false, none⟩
      else
        (run 8 (Call.broadcastC ⟨MsgType.clientRemove, some ⟨some s.id, none, none, none⟩⟩)
            { s with readyState := RS.Closed }).andThen
          (fun t => ⟨(cleanup t).1, [], [], (cleanup t).2, none⟩) := rfl

theorem close_guard (t : InstState) (h : t.readyState = RS.Closed) :
    close t = ⟨t, [], [], false, none⟩ := by
  rw [close_unfold, if_pos h]

theorem close_st_closed (s : InstState) : (close s).st.readyState = RS.Closed := by
  by_cases h : s.readyState = RS.Closed
  · rw [close_guard s h]
    exact h
  · have hb := st_closed_of_closed 8
      (Call.broadcastC ⟨MsgType.clientRemove, some ⟨some s.id, none, none, none⟩⟩)
      { s with readyState := RS.Closed } rfl rfl
    rw [close_unfold, if_neg h]
    refine andThen_st_closed hb ?_
    intro t ht
    simpa [cleanup] using ht

/-- C4: close() is idempotent: after one close() the readyState is CLOSED, so
a second close() returns immediately with the state unchanged, posts no
second client-remove message, dispatches nothing, releases nothing and throws
nothing. -/
theorem c4_close_idempotent (s : InstState) :
    close ((close s).st) = ⟨(close s).st, [], [], false, none⟩ :=
  close_guard _ (close_st_closed s)

/-- C10: close() is a no-op whenever readyState is CLOSED, however it became
CLOSED: the state is untouched (the channel stays subscribed, an installed
lock-release resolver stays unresolved), nothing is posted, nothing is
dispatched, the lock is not released and no exception is thrown. -/
theorem c10_close_noop_when_closed (s : InstState) (h : s.readyState = RS.Closed) :
    close s = ⟨s, [], [], false, none⟩ :=
  close_guard s h

/-- A leader that has just received its grant. -/
def leaderL : InstState := onGrant (newInst "L" "/sse" false)

/-- A leader whose readyState was set CLOSED by the relayed event-error
message (its channel is still open and its lock resolver still installed). -/
def leaderErrClosed : InstState :=
  (handleMessage leaderL ⟨MsgType.eventError, none⟩).st

theorem c10_witness :
    leaderErrClosed.readyState = RS.Closed ∧
    leaderErrClosed.channelOpen = true ∧
    leaderErrClosed.lockResolver = true ∧
    close leaderErrClosed = ⟨leaderErrClosed, [], [], false, none⟩ :=
  ⟨by decide, by decide, by decide,
    c10_close_noop_when_closed leaderErrClosed (by decide)⟩

/-- C2 counterexample: CLOSED is not terminal.  A follower whose readyState
became CLOSED through a relayed event-error message transitions back to OPEN
when a subsequent event-open message is delivered. -/
def followerF : InstState := newInst "F" "/sse" false

def fErrSt : InstState := (handleMessage followerF ⟨MsgType.eventError, none⟩).st

theorem c2_counterexample :
    fErrSt.channelOpen = true ∧
    fErrSt.readyState = RS.Closed ∧
    (handleMessage fErrSt ⟨MsgType.eventOpen, none⟩).st.readyState = RS.Open := by
  refine ⟨by decide, by decide, by decide⟩

/-- C2 amended: the handler sets readyState OPEN on event-open regardless of
the current state, so CLOSED reached through a relayed connection error is
not terminal; only an instance that executed close() itself stops changing
state, because close() closes its channel so no further bus message is
delivered to it. -/
theorem c2_closed_terminal_amended (s : InstState) :
    (handleMessage s ⟨MsgType.eventOpen, none⟩).st.readyState = RS.Open ∧
    (s.readyState ≠ RS.Closed → s.channelOpen = true →
      (close s).st.channelOpen = false) := by
  constructor
  · by_cases hl : s.isLeader = false <;>
      simp [handleMessage, FUEL, run, RunRes.andThen, switchPart, hl]
  · intro hrs hch
    by_cases hl : s.isLeader = true <;>
      simp [close, FUEL, run, RunRes.andThen, switchPart, cleanup, hrs, hch, hl]

theorem c2_witness :
    (handleMessage fErrSt ⟨MsgType.eventOpen, none⟩).st.readyState = RS.Open ∧
    (close followerF).st.channelOpen = false :=
  ⟨(c2_closed_terminal_amended fErrSt).1,
   (c2_closed_terminal_amended followerF).2 (by decide) (by decide)⟩

/-- C3: a message event of the real connection, while this instance is the
leader, is dispatched exactly once on the leader (through the local handling
inside broadcast), exactly one event-message is posted on the bus, and every
delivery of that message makes the receiving instance dispatch exactly one
message notification; data, origin and lastEventId travel verbatim. -/
theorem c3_fanout_verbatim (L : InstState) (d og lid : Option String)
    (hL : L.isLeader = true) (hch : L.channelOpen = true) :
    (esMessageStep L d og lid).fired = [OutEvent.messageEv d og lid] ∧
    (esMessageStep L d og lid).posted
      = [⟨MsgType.eventMessage, some ⟨none, d, og, lid⟩⟩] ∧
    (esMessageStep L d og lid).err = none ∧
    (∀ f : InstState,
      (handleMessage f ⟨MsgType.eventMessage, some ⟨none, d, og, lid⟩⟩).fired
        = [OutEvent.messageEv d og lid] ∧
      (handleMessage f ⟨MsgType.eventMessage, some ⟨none, d, og, lid⟩⟩).err = none) := by
  refine ⟨?_, ?_, ?_, ?_⟩
  · simp [esMessageStep, broadcast, FUEL, run, RunRes.andThen, switchPart, hL, hch]
  · simp [esMessageStep, broadcast, FUEL, run, RunRes.andThen, switchPart, hL, hch]
  · simp [esMessageStep, broadcast, FUEL, run, RunRes.andThen, switchPart, hL, hch]
  · intro f
    by_cases hl : f.isLeader = false <;>
      simp [handleMessage, FUEL, run, RunRes.andThen, switchPart, hl]

theorem c3_witness :
    (esMessageStep leaderL (some "ping") (some "http://h") (some "7")).fired
      = [OutEvent.messageEv (some "ping") (some "http://h") (some "7")] ∧
    (handleMessage followerF
        ⟨MsgType.eventMessage, some ⟨none, some "ping", some "http://h", some "7"⟩⟩).fired
      = [OutEvent.messageEv (some "ping") (some "http://h") (some "7")] :=
  ⟨(c3_fanout_verbatim leaderL (some "ping") (some "http://h") (some "7")
      (by decide) (by decide)).1,
   ((c3_fanout_verbatim leaderL (some "ping") (some "http://h") (some "7")
      (by decide) (by decide)).2.2.2 followerF).1⟩

/-- C5: a leader that holds the grant (resolver installed), has an open
channel and has not reached CLOSED: receiving client-remove deletes the id
from the registry; if the registry is still non-empty nothing else happens,
and if the registry drained to empty the leader runs its own close(): the
state goes to CLOSED, its own client-remove is posted, the lock grant is
released (and the release continuation drops the real EventSource). -/
theorem c5_last_leaver_teardown (s : InstState) (j : String)
    (hL : s.isLeader = true) (hch : s.channelOpen = true)
    (hres : s.lockResolver = true) (hrs : ¬ s.readyState = RS.Closed) :
    (¬ (s.clients.erase (some j)).isEmpty = true →
      handleMessage s ⟨MsgType.clientRemove, some ⟨some j, none, none, none⟩⟩ =
        ⟨{ s with clients := s.clients.erase (some j) }, [], [], false, none⟩) ∧
    ((s.clients.erase (some j)).isEmpty = true →
      handleMessage s ⟨MsgType.clientRemove, some ⟨some j, none, none, none⟩⟩ =
        ⟨{ s with clients := [], readyState := RS.Closed, lockResolver := false,
                  channelOpen := false, handlersCleared := true },
          [⟨MsgType.clientRemove, some ⟨some s.id, none, none, none⟩⟩], [], true, none⟩ ∧
      (applyRelease
        (handleMessage s ⟨MsgType.clientRemove, some ⟨some j, none, none, none⟩⟩).st).realES
          = none ∧
      (applyRelease
        (handleMessage s ⟨MsgType.clientRemove, some ⟨some j, none, none, none⟩⟩).st).isLeader
          = false) := by
  constructor
  · intro hne
    simp [handleMessage, FUEL, run, RunRes.andThen, switchPart, hL, hne]
  · intro hempty
    have he : s.clients.erase (some j) = [] := List.isEmpty_iff.mp hempty
    constructor
    · simp [handleMessage, FUEL, run, RunRes.andThen, switchPart, cleanup,
        hL, hch, hres, hrs, he]
    · constructor <;>
        simp [applyRelease, handleMessage, FUEL, run, RunRes.andThen, switchPart,
          cleanup, hL, hch, hres, hrs, he]

/-- A leader with the last remaining client being some other instance j. -/
def leaderLastJ : InstState := { leaderL with clients := [some "j"] }

theorem c5_witness :
    handleMessage leaderLastJ ⟨MsgType.clientRemove, some ⟨some "j", none, none, none⟩⟩ =
      ⟨{ leaderLastJ with clients := [], readyState := RS.Closed, lockResolver := false,
                          channelOpen := false, handlersCleared := true },
        [⟨MsgType.clientRemove, some ⟨some "L", none, none, none⟩⟩], [], true, none⟩ :=
  ((c5_last_leaver_teardown leaderLastJ "j" (by decide) (by decide) (by decide)
      (by decide)).2 (by decide)).1

/-- C6: a leader whose real connection is currently OPEN: receiving
client-add adds the new id to the registry and immediately posts event-open
again (going through its local event-open handling, which dispatches open);
and delivering event-open to any instance sets its readyState to OPEN, so the
new arrival converges without a fresh server event. -/
theorem c6_join_rebroadcast (s : InstState) (j : String) (es : RealES)
    (hL : s.isLeader = true) (hch : s.channelOpen = true)
    (hes : s.realES = some es) (hopen : es.esReadyState = RS.Open) :
    (handleMessage s ⟨MsgType.clientAdd, some ⟨some j, none, none, none⟩⟩).st.clients
      = setAdd s.clients (some j) ∧
    (handleMessage s ⟨MsgType.clientAdd, some ⟨some j, none, none, none⟩⟩).posted
      = [⟨MsgType.eventOpen, none⟩] ∧
    (handleMessage s ⟨MsgType.clientAdd, some ⟨some j, none, none, none⟩⟩).err = none ∧
    (∀ t : InstState,
      (handleMessage t ⟨MsgType.eventOpen, none⟩).st.readyState = RS.Open) := by
  have hmap : s.realES.map RealES.esReadyState = some RS.Open := by
    rw [hes]; simp [hopen]
  refine ⟨?_, ?_, ?_, ?_⟩
  · simp [handleMessage, FUEL, run, RunRes.andThen, switchPart, setAdd, hL, hch, hmap]
  · simp [handleMessage, FUEL, run, RunRes.andThen, switchPart, setAdd, hL, hch, hmap]
  · simp [handleMessage, FUEL, run, RunRes.andThen, switchPart, setAdd, hL, hch, hmap]
  · intro t
    by_cases hl : t.isLeader = false <;>
      simp [handleMessage, FUEL, run, RunRes.andThen, switchPart, hl]

/-- The leader leaderL after its real connection reported open. -/
def leaderOpenL : InstState := (esOpenStep leaderL).st

theorem c6_witness :
    (handleMessage leaderOpenL ⟨MsgType.clientAdd, some ⟨some "b", none, none, none⟩⟩).st.clients
      = [some "L", some "b"] ∧
    (handleMessage leaderOpenL ⟨MsgType.clientAdd, some ⟨some "b", none, none, none⟩⟩).posted
      = [⟨MsgType.eventOpen, none⟩] ∧
    (handleMessage followerF ⟨MsgType.eventOpen, none⟩).st.readyState = RS.Open := by
  have h := c6_join_rebroadcast leaderOpenL "b" ⟨"/sse", false, RS.Open⟩
    (by decide) (by decide) (by decide) (by decide)
  exact ⟨by rw [h.1]; decide, h.2.1, h.2.2.2 followerF⟩

/-- C8: construction fails with a synchronous error exactly when the host
lacks BroadcastChannel or the Web Locks API; with both present it returns the
fresh CONNECTING instance and posts client-add, and throws nothing. -/
theorem c8_capability_check (env : HostEnv) (url idv : String) (wc : Bool) :
    ((env.hasBroadcastChannel = false ∨ env.hasLocks = false) →
      construct env url idv wc = Except.error JsErr.envError) ∧
    (env.hasBroadcastChannel = true → env.hasLocks = true →
      construct env url idv wc =
        Except.ok (newInst idv url wc,
          [⟨MsgType.clientAdd, some ⟨some idv, none, none, none⟩⟩])) := by
  constructor
  · intro h
    rcases h with h | h <;> simp [construct, h]
  · intro h1 h2
    simp [construct, h1, h2, broadcast, FUEL, run, newInst]

theorem c8_witness :
    construct ⟨false, true⟩ "/sse" "a" false = Except.error JsErr.envError ∧
    construct ⟨true, true⟩ "/sse" "a" false =
      Except.ok (newInst "a" "/sse" false,
        [⟨MsgType.clientAdd, some ⟨some "a", none, none, none⟩⟩]) :=
  ⟨(c8_capability_check ⟨false, true⟩ "/sse" "a" false).1 (Or.inl rfl),
   (c8_capability_check ⟨true, true⟩ "/sse" "a" false).2 rfl rfl⟩

/-- C9 amended: a message with an unknown tag (or the never-handled
leader-closing tag) is ignored completely, whatever its payload and whoever
receives it, and a non-leader handler never throws on any message; but the
leader's handler is not total (see the counterexample: a membership message
with a missing payload throws). -/
theorem c9_unknown_tags_ignored (s : InstState) (p : Option PayloadObj) (tag : String) :
    handleMessage s ⟨MsgType.unknownTag tag, p⟩ = ⟨s, [], [], false, none⟩ ∧
    handleMessage s ⟨MsgType.leaderClosing, p⟩ = ⟨s, [], [], false, none⟩ ∧
    (∀ m : BMessage, s.isLeader = false → (handleMessage s m).err = none) := by
  refine ⟨?_, ?_, ?_⟩
  · by_cases hl : s.isLeader = false <;>
      simp [handleMessage, FUEL, run, RunRes.andThen, switchPart, hl]
  · by_cases hl : s.isLeader = false <;>
      simp [handleMessage, FUEL, run, RunRes.andThen, switchPart, hl]
  · intro m hl
    rcases m with ⟨t, p2⟩
    cases t <;>
      simp [handleMessage, FUEL, run, RunRes.andThen, switchPart, hl]

/-- C9 counterexample: the handler is not total.  The leader receiving
client-add with a missing payload throws a TypeError while reading
payload.id, instead of ignoring the malformed message. -/
theorem c9_counterexample :
    leaderL.isLeader = true ∧
    (handleMessage leaderL ⟨MsgType.clientAdd, none⟩).err = some JsErr.typeError ∧
    (handleMessage leaderL ⟨MsgType.clientRemove, none⟩).err = some JsErr.typeError := by
  refine ⟨by decide, by decide, by decide⟩

theorem c9_witness :
    handleMessage followerF ⟨MsgType.unknownTag "v2-hello", none⟩
      = ⟨followerF, [], [], false, none⟩ ∧
    (handleMessage followerF ⟨MsgType.clientAdd, none⟩).err = none :=
  ⟨(c9_unknown_tags_ignored followerF none "v2-hello").1,
   (c9_unknown_tags_ignored followerF none "v2-hello").2.2
     ⟨MsgType.clientAdd, none⟩ (by decide)⟩
